import Mathlib

/-!
Verification of the `@aglabo/agla-error-core` error model.

A shallow embedding of the runtime behaviour of the package sources:

* `shared/types/ErrorSeverity.types.ts` — the severity vocabulary and its
  runtime validator `AG_isValidErrorSeverity`;
* `shared/types/AglaErrorOptions.types.ts` — `isValidAglaErrorContext` and
  `guardAglaErrorContext`;
* `shared/types/AglaError.class.ts` — the internal `_AglaErrorOptions`
  normalisation, the `AglaError` entity, its accessors, `toString`,
  `toJSON`, and the `chain` operation.

The dynamic (JavaScript) value universe is modelled by the inductive type
`JSValue`.  Mutable heap objects carry an identity number, so that equality
of two `JSValue.obj` terms (same identity, same fields) models
reference-equality of the underlying object, and passing a value through
unchanged models sharing of the reference.  Operations that can raise are
modelled in `Except JSException`.
-/

/-- A JavaScript runtime value, as far as the error-core code observes it.
Objects and dates carry an identity number modelling their heap reference.
`num`/`nan`/`inf`/`negInf` split the JS number type by the cases the code
distinguishes; `date none` is an invalid `Date` (its time value is NaN). -/
inductive JSValue where
  | undef
  | null
  | bool (b : Bool)
  | num (n : Int)
  | nan
  | inf
  | negInf
  | str (s : String)
  | bigint (n : Int)
  | sym (id : Nat)
  | date (timeValue : Option Int) (id : Nat)
  | obj (id : Nat) (fields : List (String × JSValue))

/-- A raised JavaScript exception, by kind and message. -/
inductive JSException where
  | typeError (msg : String)
  | rangeError (msg : String)
  | jsError (msg : String)

/-- The JS `typeof` operator on a modelled value (`typeof null` is
`"object"`, dates and plain objects are `"object"`). -/
def typeofJS : JSValue → String
  | JSValue.undef => "undefined"
  | JSValue.null => "object"
  | JSValue.bool _ => "boolean"
  | JSValue.num _ => "number"
  | JSValue.nan => "number"
  | JSValue.inf => "number"
  | JSValue.negInf => "number"
  | JSValue.str _ => "string"
  | JSValue.bigint _ => "bigint"
  | JSValue.sym _ => "symbol"
  | JSValue.date _ _ => "object"
  | JSValue.obj _ _ => "object"

/-- JS truthiness: everything is truthy except `undefined`, `null`,
`false`, `0`, `0n`, `NaN` and the empty string. -/
def truthy : JSValue → Bool
  | JSValue.undef => false
  | JSValue.null => false
  | JSValue.bool b => b
  | JSValue.num n => n != 0
  | JSValue.nan => false
  | JSValue.inf => true
  | JSValue.negInf => true
  | JSValue.str s => s != ""
  | JSValue.bigint n => n != 0
  | JSValue.sym _ => true
  | JSValue.date _ _ => true
  | JSValue.obj _ _ => true

/-- Association lookup in an object's field list; a missing key reads as
`undefined`, exactly like JS property access on a plain object. -/
def lookupField (k : String) : List (String × JSValue) → JSValue
  | [] => JSValue.undef
  | (k', v) :: rest => if k' == k then v else lookupField k rest

/-- JS property read `v[k]` for the values the sources read properties
from: field lookup on plain objects, `undefined` on anything else the
code reaches (the five option keys are not properties of `Date`). -/
def getProp (k : String) : JSValue → JSValue
  | JSValue.obj _ fields => lookupField k fields
  | _ => JSValue.undef

/-- The JS `k in v` membership operator: own-key membership on plain
objects, `false` on dates (none of the option keys exists on
`Date.prototype`), and a `TypeError` on any non-object right operand. -/
def inOp (k : String) (v : JSValue) : Except JSException Bool :=
  match v with
  | JSValue.obj _ fields => Except.ok (fields.any (fun f => f.1 == k))
  | JSValue.date _ _ => Except.ok false
  | _ => Except.error (JSException.typeError
      ("Cannot use in operator to search for " ++ k ++ " in a value of type " ++ typeofJS v))

/-- JSON string escaping for one character, as `JSON.stringify` renders
string values. -/
def jsEscapeChar (c : Char) : String :=
  if c = '"' then "\\\""
  else if c = '\\' then "\\\\"
  else if c = '\n' then "\\n"
  else if c = '\t' then "\\t"
  else if c = '\r' then "\\r"
  else String.singleton c

/-- A JSON string literal for `s`, as `JSON.stringify` renders it. -/
def jsQuote (s : String) : String :=
  "\"" ++ String.join (s.toList.map jsEscapeChar) ++ "\""

/-- Left-pad a decimal numeral with zeroes to width `w`. -/
def padNum (w n : Nat) : String :=
  let s := toString n
  if s.length < w then String.mk (List.replicate (w - s.length) '0') ++ s else s

/-- `Date.prototype.toISOString` on a time value of `ms` milliseconds
since the Unix epoch: the proleptic Gregorian calendar date computed by
shifting the epoch to 0000-03-01 (719468 days earlier), rendered as
`YYYY-MM-DDTHH:mm:ss.sssZ`.  Total; produces `""` for instants before
year 0, which no claim touches. -/
def isoString (ms : Int) : String :=
  let z := ms + 719468 * 86400000
  if z < 0 then "" else
  let zn := z.toNat
  let days := zn / 86400000
  let rem := zn % 86400000
  let era := days / 146097
  let doe := days % 146097
  let yoe := (doe - doe / 1460 + doe / 36524 - doe / 146096) / 365
  let y0 := yoe + era * 400
  let doy := doe - (365 * yoe + yoe / 4 - yoe / 100)
  let mp := (5 * doy + 2) / 153
  let d := doy - (153 * mp + 2) / 5 + 1
  let m := if mp < 10 then mp + 3 else mp - 9
  let y := if m ≤ 2 then y0 + 1 else y0
  let hh := rem / 3600000
  let mi := rem % 3600000 / 60000
  let ss := rem % 60000 / 1000
  let msec := rem % 1000
  padNum 4 y ++ "-" ++ padNum 2 m ++ "-" ++ padNum 2 d ++ "T" ++
    padNum 2 hh ++ ":" ++ padNum 2 mi ++ ":" ++ padNum 2 ss ++ "." ++ padNum 3 msec ++ "Z"

/-- Days from 0000-03-01 to the civil date `y-m-d` (proleptic Gregorian),
the inverse of the calendar computation in `isoString`. -/
def daysFromCivil (y m d : Nat) : Nat :=
  let y' := if m ≤ 2 then y - 1 else y
  let era := y' / 400
  let yoe := y' % 400
  let mp := if m > 2 then m - 3 else m + 9
  let doy := (153 * mp + 2) / 5 + d - 1
  let doe := yoe * 365 + yoe / 4 - yoe / 100 + doy
  era * 146097 + doe

/-- The time value (milliseconds since the Unix epoch) of the UTC instant
`y-mo-d hh:mi:ss.ms`, i.e. what `new Date('<that instant>Z')` holds. -/
def mkUTCMillis (y mo d hh mi ss ms : Nat) : Int :=
  Int.ofNat (daysFromCivil y mo d * 86400000 + hh * 3600000 + mi * 60000 + ss * 1000 + ms)
    - 719468 * 86400000

/-- The `this.timestamp.toISOString()` call in `AglaError.toJSON`
(AglaError.class.ts line 155): renders a valid date, raises `RangeError`
on an invalid date, and raises `TypeError` when the stored timestamp is
not a `Date` at all. -/
def toISOStringOf : JSValue → Except JSException String
  | JSValue.date (some ms) _ => Except.ok (isoString ms)
  | JSValue.date none _ => Except.error (JSException.rangeError "Invalid time value")
  | v => Except.error (JSException.typeError
      ("toISOString is not a function on a value of type " ++ typeofJS v))

mutual

/-- `JSON.stringify` on a modelled value.  `Except.ok none` is the JS
result `undefined` (top-level `undefined` or symbol); BigInt values raise
`TypeError`; `NaN` and infinities render as `null`; a `Date` renders via
its `toJSON` (the ISO string for a valid date, `null` for an invalid
one); object properties whose value serialises to `undefined` are
omitted. -/
def jsonStringify : JSValue → Except JSException (Option String)
  | JSValue.undef => Except.ok none
  | JSValue.null => Except.ok (some "null")
  | JSValue.bool b => Except.ok (some (if b then "true" else "false"))
  | JSValue.num n => Except.ok (some (toString n))
  | JSValue.nan => Except.ok (some "null")
  | JSValue.inf => Except.ok (some "null")
  | JSValue.negInf => Except.ok (some "null")
  | JSValue.str s => Except.ok (some (jsQuote s))
  | JSValue.bigint _ => Except.error (JSException.typeError "Do not know how to serialize a BigInt")
  | JSValue.sym _ => Except.ok none
  | JSValue.date none _ => Except.ok (some "null")
  | JSValue.date (some ms) _ => Except.ok (some (jsQuote (isoString ms)))
  | JSValue.obj _ fields => do
      let parts ← jsonStringifyFields fields
      Except.ok (some ("\x7b" ++ String.intercalate "," parts ++ "\x7d"))

/-- Serialise an object's fields in insertion order, dropping the ones
whose value serialises to `undefined`. -/
def jsonStringifyFields : List (String × JSValue) → Except JSException (List String)
  | [] => Except.ok []
  | (k, v) :: rest => do
      let r ← jsonStringify v
      let tail ← jsonStringifyFields rest
      match r with
      | none => Except.ok tail
      | some s => Except.ok ((jsQuote k ++ ":" ++ s) :: tail)

end

/-! ## Severity (ErrorSeverity.types.ts) -/

/-- `AG_ERROR_SEVERITY_VALUES` (ErrorSeverity.types.ts line 67):
`Object.values(AG_ERROR_SEVERITY)` in declaration order. -/
def AG_ERROR_SEVERITY_VALUES : List String := ["fatal", "error", "warning", "info"]

/-- `AG_isValidErrorSeverity` (ErrorSeverity.types.ts lines 83-86):
`typeof value === 'string' && AG_ERROR_SEVERITY_VALUES.includes(value)`.
The inner match extracts the string payload the `includes` call compares
against. -/
def AG_isValidErrorSeverity (value : JSValue) : Bool :=
  typeofJS value == "string" &&
    (match value with
     | JSValue.str s => AG_ERROR_SEVERITY_VALUES.contains s
     | _ => false)

/-! ## Context guards (AglaErrorOptions.types.ts) -/

/-- Whether `v` is `JSValue.null`. -/
def isNullValue : JSValue → Bool
  | JSValue.null => true
  | _ => false

/-- `isValidAglaErrorContext` (AglaErrorOptions.types.ts lines 26-27):
`typeof value === 'object' && value !== null`. -/
def isValidAglaErrorContext (value : JSValue) : Bool :=
  typeofJS value == "object" && !(isNullValue value)

/-- `guardAglaErrorContext` (AglaErrorOptions.types.ts lines 35-40):
raise a descriptive `Error` on an invalid context, otherwise return the
argument itself. -/
def guardAglaErrorContext (value : JSValue) : Except JSException JSValue :=
  if !(isValidAglaErrorContext value) then
    Except.error (JSException.jsError
      ("Invalid AglaErrorContext: expected object, got " ++ typeofJS value))
  else
    Except.ok value

/-! ## The error entity (AglaError.class.ts) -/

/-- The internal `_AglaErrorOptions` record (AglaError.class.ts lines
27-34).  Every field except `errorType` holds whatever runtime value was
extracted; an unset field holds `undefined`. -/
structure _AglaErrorOptions where
  errorType : String
  code : JSValue
  severity : JSValue
  timestamp : JSValue
  context : JSValue
  cause : JSValue

/-- The `_AglaErrorOptions` constructor (AglaError.class.ts lines 40-61).
The condition `options && ('code' in options || 'severity' in options ||
'timestamp' in options || 'context' in options || 'cause' in options)`
is modelled with the same left-to-right short-circuit evaluation; the
structured branch extracts the five fields independently, the legacy
branch stores the whole `options` value as the context. -/
def _AglaErrorOptions.make (errorType : String) (options : JSValue) :
    Except JSException _AglaErrorOptions := do
  if truthy options then
    let b1 ← inOp "code" options
    let b2 ← if b1 then pure true else inOp "severity" options
    let b3 ← if b2 then pure true else inOp "timestamp" options
    let b4 ← if b3 then pure true else inOp "context" options
    let b5 ← if b4 then pure true else inOp "cause" options
    if b5 then
      pure { errorType := errorType
             code := getProp "code" options
             severity := getProp "severity" options
             timestamp := getProp "timestamp" options
             context := getProp "context" options
             cause := getProp "cause" options }
    else
      pure { errorType := errorType, code := JSValue.undef, severity := JSValue.undef,
             timestamp := JSValue.undef, context := options, cause := JSValue.undef }
  else
    pure { errorType := errorType, code := JSValue.undef, severity := JSValue.undef,
           timestamp := JSValue.undef, context := options, cause := JSValue.undef }

/-- A value stored in the ES2022 `cause` slot by `chain`: either an
ordinary runtime value or a reference to an error instance (identified by
its heap identity), which lets a chain target the original error itself. -/
inductive CauseValue where
  | val (v : JSValue)
  | errRef (id : Nat)

/-- An `AglaError` instance (AglaError.class.ts lines 68-187).  `refId`
is the instance's heap identity; `ctorId` identifies the concrete
subtype whose constructor built it (the class object read back through
`this.constructor`); `message` is the inherited `Error` message;
`_options` is the private normalised options record; `cause` is the
ES2022 causal-link slot, set only by `chain`. -/
structure AglaError where
  refId : Nat
  ctorId : Nat
  message : String
  _options : _AglaErrorOptions
  cause : Option CauseValue

/-- Accessor `get errorType` (AglaError.class.ts lines 73-75). -/
def AglaError.errorType (e : AglaError) : String := e._options.errorType

/-- Accessor `get code` (AglaError.class.ts lines 78-80). -/
def AglaError.code (e : AglaError) : JSValue := e._options.code

/-- Accessor `get severity` (AglaError.class.ts lines 83-85). -/
def AglaError.severity (e : AglaError) : JSValue := e._options.severity

/-- Accessor `get timestamp` (AglaError.class.ts lines 88-90). -/
def AglaError.timestamp (e : AglaError) : JSValue := e._options.timestamp

/-- Accessor `get context` (AglaError.class.ts lines 93-95). -/
def AglaError.context (e : AglaError) : JSValue := e._options.context

/-- The `AglaError` constructor (AglaError.class.ts lines 108-122),
invoked through a concrete subtype identified by `ctorId` and allocating
the fresh instance `refId`: store the message, normalise the options via
`_AglaErrorOptions.make`, and leave the ES2022 `cause` slot unset.  The
name assignment and the conditional stack capture have no observable
effect on the modelled fields. -/
def mkAglaError (ctorId refId : Nat) (errorType message : String) (options : JSValue) :
    Except JSException AglaError := do
  let o ← _AglaErrorOptions.make errorType options
  pure { refId := refId, ctorId := ctorId, message := message, _options := o, cause := none }

/-- `AglaError.toString` (AglaError.class.ts lines 129-135): start from
`contextStr = ''`, overwrite it with `JSON.stringify(this.context)` when
the context is truthy (a `none` result is the JS `undefined`), and append
`' ' ++ contextStr` only when `contextStr` is itself truthy. -/
def AglaError.toString (e : AglaError) : Except JSException String := do
  let contextStr ← if truthy e.context then jsonStringify e.context else pure (some "")
  pure (e.errorType ++ ": " ++ e.message ++
    (match contextStr with
     | some s => if s == "" then "" else " " ++ s
     | none => ""))

/-- `AglaError.toJSON` (AglaError.class.ts lines 142-158): `errorType`
and `message` always; each of `code`, `severity`, `timestamp`, `context`
spread in only when truthy (`...(x && ...)` spreads nothing for a falsy
`x`); a truthy timestamp is rendered through `toISOString()`. -/
def AglaError.toJSON (e : AglaError) : Except JSException (List (String × JSValue)) := do
  let timestampField ←
    if truthy e.timestamp then do
      let iso ← toISOStringOf e.timestamp
      pure [("timestamp", JSValue.str iso)]
    else pure ([] : List (String × JSValue))
  pure ([("errorType", JSValue.str e.errorType), ("message", JSValue.str e.message)]
    ++ (if truthy e.code then [("code", e.code)] else [])
    ++ (if truthy e.severity then [("severity", e.severity)] else [])
    ++ timestampField
    ++ (if truthy e.context then [("context", e.context)] else []))

/-- `AglaError.chain` (AglaError.class.ts lines 168-186): re-invoke the
concrete subtype's constructor (`this.constructor`, hence the same
`ctorId`) with the original `errorType` and `message` and a fresh options
object literal carrying the original `code`, `severity`, `timestamp` and
`context` by reference, then overwrite the new instance's ES2022 `cause`
slot with the causing value.  `optsId` is the identity of the fresh
options literal, `refId` the identity of the new instance. -/
def AglaError.chain (e : AglaError) (refId optsId : Nat) (cause : CauseValue) :
    Except JSException AglaError := do
  let options := JSValue.obj optsId
    [("code", e.code), ("severity", e.severity), ("timestamp", e.timestamp),
     ("context", e.context)]
  let newError ← mkAglaError e.ctorId refId e.errorType e.message options
  pure { newError with cause := some cause }

/-! ## Spec-side characterisations

These definitions follow the wording of the specification, to be compared
with the source-translated operations above. -/

/-- Whether a value is a JS object (a plain object or a date); `null` is
not an object value. -/
def isJSObject : JSValue → Bool
  | JSValue.obj _ _ => true
  | JSValue.date _ _ => true
  | _ => false

/-- The spec's disambiguation test: the options value contains at least
one of the five recognised structured keys `code`, `severity`,
`timestamp`, `context`, `cause`. -/
def hasAnyRecognizedKey (fields : List (String × JSValue)) : Bool :=
  fields.any (fun f => f.1 == "code") || fields.any (fun f => f.1 == "severity") ||
  fields.any (fun f => f.1 == "timestamp") || fields.any (fun f => f.1 == "context") ||
  fields.any (fun f => f.1 == "cause")

/-- A stored timestamp on which `toJSON` completes: absent/falsy (it is
skipped) or a valid `Date` (it renders).  An invalid `Date` or a truthy
non-`Date` makes the `toISOString()` call raise.  Spelled out per
constructor: a valid date, or any falsy value. -/
def tsRenderable : JSValue → Bool
  | JSValue.date (some _) _ => true
  | JSValue.date none _ => false
  | JSValue.undef => true
  | JSValue.null => true
  | JSValue.bool b => !b
  | JSValue.num n => n == 0
  | JSValue.nan => true
  | JSValue.inf => false
  | JSValue.negInf => false
  | JSValue.str s => s == ""
  | JSValue.bigint n => n == 0
  | JSValue.sym _ => false
  | JSValue.obj _ _ => false

/-- A stored context on which `toString` renders the documented shape:
falsy (the suffix is omitted) or one whose `JSON.stringify` yields a
nonempty string.  A BigInt inside the context makes `JSON.stringify`
raise, and a lone symbol makes it yield `undefined`. -/
def ctxRenderable (v : JSValue) : Bool :=
  if truthy v then
    match jsonStringify v with
    | Except.ok (some s) => !(s == "")
    | _ => false
  else true

/-- `toJSON` output as the spec words it: `errorType` and `message`
always present; `code`, `severity` and `context` present exactly when
truthy; a present valid timestamp rendered as its ISO-8601 string,
otherwise omitted. -/
def specToJSON (e : AglaError) : List (String × JSValue) :=
  [("errorType", JSValue.str e.errorType), ("message", JSValue.str e.message)]
  ++ (if truthy e.code then [("code", e.code)] else [])
  ++ (if truthy e.severity then [("severity", e.severity)] else [])
  ++ (match e.timestamp with
      | JSValue.date (some ms) _ => [("timestamp", JSValue.str (isoString ms))]
      | _ => [])
  ++ (if truthy e.context then [("context", e.context)] else [])

/-- `toString` output as the spec words it: `ErrorType: message`, with a
space and the JSON-stringified context appended exactly when the context
is present and non-falsy. -/
def specToString (e : AglaError) : String :=
  e.errorType ++ ": " ++ e.message ++
    (if truthy e.context then
       match jsonStringify e.context with
       | Except.ok (some s) => " " ++ s
       | _ => ""
     else "")

/-! ## Sample instances used by witnesses and counterexamples -/

/-- An error with a context `\x7bx:1\x7d`, as in the spec's `toString`
example. -/
def sampleCtxError : AglaError :=
  { refId := 13, ctorId := 0, message := "m",
    _options :=
      { errorType := "E", code := JSValue.undef, severity := JSValue.undef,
        timestamp := JSValue.undef, context := JSValue.obj 3 [("x", JSValue.num 1)],
        cause := JSValue.undef },
    cause := none }

/-- An error constructed with only `errorType` and `message`. -/
def sampleMinimalError : AglaError :=
  { refId := 11, ctorId := 0, message := "m",
    _options :=
      { errorType := "E", code := JSValue.undef, severity := JSValue.undef,
        timestamp := JSValue.undef, context := JSValue.undef, cause := JSValue.undef },
    cause := none }

/-- An error whose timestamp is `new Date('2025-08-29T21:42:00Z')`. -/
def sampleDatedError : AglaError :=
  { refId := 10, ctorId := 0, message := "m",
    _options :=
      { errorType := "E", code := JSValue.undef, severity := JSValue.undef,
        timestamp := JSValue.date (some (mkUTCMillis 2025 8 29 21 42 0 0)) 5,
        context := JSValue.undef, cause := JSValue.undef },
    cause := none }

/-- An error whose stored timestamp is an invalid `Date` (time value
NaN), as produced by constructing with `timestamp: new Date(NaN)`. -/
def sampleInvalidDateError : AglaError :=
  { refId := 12, ctorId := 0, message := "m",
    _options :=
      { errorType := "E", code := JSValue.undef, severity := JSValue.undef,
        timestamp := JSValue.date none 6, context := JSValue.undef,
        cause := JSValue.undef },
    cause := none }

/-- An error whose context holds a BigInt value, `\x7ba: 1n\x7d`. -/
def sampleBigIntCtxError : AglaError :=
  { refId := 14, ctorId := 0, message := "m",
    _options :=
      { errorType := "E", code := JSValue.undef, severity := JSValue.undef,
        timestamp := JSValue.undef, context := JSValue.obj 4 [("a", JSValue.bigint 1)],
        cause := JSValue.undef },
    cause := none }

/-! ## Helper lemmas -/

theorem exceptBind_ok {α β : Type} (a : α) (k : α → Except JSException β) :
    (Except.ok a >>= k) = k a := rfl

theorem exceptBind_error {α β : Type} (err : JSException) (k : α → Except JSException β) :
    ((Except.error err : Except JSException α) >>= k) = Except.error err := rfl

theorem exceptPure_eq_ok {α : Type} (a : α) :
    (pure a : Except JSException α) = Except.ok a := rfl

/-- Evaluating `chain` on any instance: the constructor re-invocation
always takes the structured branch (the fresh options literal owns the
key `code`), so the result is the instance with the original fields, a
reset legacy `cause` option slot, and the causal link set. -/
theorem chain_eq (e : AglaError) (refId optsId : Nat) (c : CauseValue) :
    e.chain refId optsId c = Except.ok
      { refId := refId, ctorId := e.ctorId, message := e.message,
        _options :=
          { errorType := e._options.errorType, code := e._options.code,
            severity := e._options.severity, timestamp := e._options.timestamp,
            context := e._options.context, cause := JSValue.undef },
        cause := some c } := rfl

/-- Evaluating the options normalisation on a plain object: the
structured branch fires exactly when one of the five recognised keys is
present, and otherwise the whole object becomes the context. -/
theorem make_obj_eq (et : String) (oid : Nat) (fields : List (String × JSValue)) :
    _AglaErrorOptions.make et (JSValue.obj oid fields) = Except.ok
      (if hasAnyRecognizedKey fields then
        { errorType := et, code := lookupField "code" fields,
          severity := lookupField "severity" fields,
          timestamp := lookupField "timestamp" fields,
          context := lookupField "context" fields,
          cause := lookupField "cause" fields }
       else
        { errorType := et, code := JSValue.undef, severity := JSValue.undef,
          timestamp := JSValue.undef, context := JSValue.obj oid fields,
          cause := JSValue.undef }) := by
  cases h1 : fields.any (fun f => f.1 == "code") <;>
    cases h2 : fields.any (fun f => f.1 == "severity") <;>
      cases h3 : fields.any (fun f => f.1 == "timestamp") <;>
        cases h4 : fields.any (fun f => f.1 == "context") <;>
          cases h5 : fields.any (fun f => f.1 == "cause") <;>
            simp [_AglaErrorOptions.make, inOp, truthy, hasAnyRecognizedKey, getProp,
              exceptBind_ok, exceptPure_eq_ok, h1, h2, h3, h4, h5]

/-! ## Claim theorems -/

/-- C1: for every constructed error instance `e` and every cause value
`c`, `e.chain c` succeeds and returns a new instance — not
reference-equal to `e` (it gets a fresh heap identity) — of the exact
same concrete subtype (same constructor identity), with `errorType`,
`message`, `code`, `severity` and `timestamp` equal to `e`'s, with
`context` reference-equal to `e`'s context (the very same value is
passed through), and with the ES2022 causal-link slot reference-equal to
`c`.  The operation is pure in the model, so the original `e` is left
unchanged. -/
theorem chain_preserves_identity_and_fields (e : AglaError) (c : CauseValue)
    (refId optsId : Nat) (h : refId ≠ e.refId) :
    ∃ r, e.chain refId optsId c = Except.ok r ∧
      r.refId ≠ e.refId ∧
      r.ctorId = e.ctorId ∧
      r.errorType = e.errorType ∧
      r.message = e.message ∧
      r.code = e.code ∧
      r.severity = e.severity ∧
      r.timestamp = e.timestamp ∧
      r.context = e.context ∧
      r.cause = some c :=
  ⟨_, chain_eq e refId optsId c, h, rfl, rfl, rfl, rfl, rfl, rfl, rfl, rfl⟩

/-- C1 witness: chaining a concrete error (here with the error itself as
the causing value) at a fresh heap identity. -/
theorem chain_preserves_identity_and_fields_witness :
    (2 ≠ sampleCtxError.refId) ∧
    (∃ r, sampleCtxError.chain 2 3 (CauseValue.errRef sampleCtxError.refId) = Except.ok r ∧
      r.refId ≠ sampleCtxError.refId ∧
      r.ctorId = sampleCtxError.ctorId ∧
      r.errorType = sampleCtxError.errorType ∧
      r.message = sampleCtxError.message ∧
      r.code = sampleCtxError.code ∧
      r.severity = sampleCtxError.severity ∧
      r.timestamp = sampleCtxError.timestamp ∧
      r.context = sampleCtxError.context ∧
      r.cause = some (CauseValue.errRef sampleCtxError.refId)) :=
  ⟨by decide,
   chain_preserves_identity_and_fields sampleCtxError
     (CauseValue.errRef sampleCtxError.refId) 2 3 (by decide)⟩

/-- C5: `chain` never throws, for any cause value whatsoever — `null`,
`undefined`, plain objects, strings, or a reference to the error itself
(`CauseValue.errRef e.refId`) — and stores exactly the given value in
the causal-link slot, without rejection or normalisation. -/
theorem chain_total_stores_cause (e : AglaError) (c : CauseValue) (refId optsId : Nat) :
    ∃ r, e.chain refId optsId c = Except.ok r ∧ r.cause = some c :=
  ⟨_, chain_eq e refId optsId c, rfl⟩

/-- C2 counterexample: constructing with the truthy primitive string
`"boom"` as the options argument does throw.  JS raises a `TypeError`
when the right operand of the `in` operator is not an object, and the
constructor's disambiguation test `options && ('code' in options || …)`
reaches `'code' in options` for any truthy primitive.  So construction
is not exception-free for every malformed options value. -/
theorem mk_throws_on_truthy_primitive_options :
    mkAglaError 0 1 "ConfigError" "bad" (JSValue.str "boom") =
      Except.error (JSException.typeError
        "Cannot use in operator to search for code in a value of type string") := rfl

/-- C2 amended: construction never throws when the options argument is
an object (a structured bag or a bare context object, of any shape) or
any falsy value (absent, `undefined`, `null`, `false`, `0`, `NaN`,
`''`); such malformed or ambiguous options are degraded gracefully
rather than rejected.  Only a truthy primitive as options throws, per
the counterexample. -/
theorem mkAglaError_of_make {et : String} {options : JSValue} {o : _AglaErrorOptions}
    (ctorId refId : Nat) (msg : String)
    (h : _AglaErrorOptions.make et options = Except.ok o) :
    mkAglaError ctorId refId et msg options =
      Except.ok { refId := refId, ctorId := ctorId, message := msg, _options := o,
                  cause := none } := by
  simp [mkAglaError, h, exceptBind_ok, exceptPure_eq_ok]

theorem mk_noThrow_for_object_or_falsy_options (ctorId refId : Nat) (et msg : String)
    (options : JSValue)
    (h : isJSObject options = true ∨ truthy options = false) :
    ∃ e, mkAglaError ctorId refId et msg options = Except.ok e := by
  rcases h with hobj | hfal
  · cases options with
    | obj oid fields =>
        exact ⟨_, mkAglaError_of_make ctorId refId msg (make_obj_eq et oid fields)⟩
    | date tv did => exact ⟨_, mkAglaError_of_make ctorId refId msg rfl⟩
    | _ => simp [isJSObject] at hobj
  · have hmake : _AglaErrorOptions.make et options = Except.ok
        { errorType := et, code := JSValue.undef, severity := JSValue.undef,
          timestamp := JSValue.undef, context := options, cause := JSValue.undef } := by
      simp [_AglaErrorOptions.make, hfal, exceptPure_eq_ok]
    exact ⟨_, mkAglaError_of_make ctorId refId msg hmake⟩

/-- C2 amended witness: a bare context object and the falsy value `null`
both construct successfully. -/
theorem mk_noThrow_for_object_or_falsy_options_witness :
    (isJSObject (JSValue.obj 8 [("userId", JSValue.str "123")]) = true ∨
      truthy (JSValue.obj 8 [("userId", JSValue.str "123")]) = false) ∧
    ∃ e, mkAglaError 0 1 "E" "m" (JSValue.obj 8 [("userId", JSValue.str "123")]) =
      Except.ok e :=
  ⟨Or.inl rfl,
   mk_noThrow_for_object_or_falsy_options 0 1 "E" "m"
     (JSValue.obj 8 [("userId", JSValue.str "123")]) (Or.inl rfl)⟩

/-- C3: options disambiguation.  For a present options object: when it
contains at least one of the five recognised keys, each of the five
fields is extracted independently by key lookup (a missing key leaves
the field unset, i.e. `undefined`); when it contains none of them, the
entire options value becomes the context and `code`, `severity`,
`timestamp` and the legacy `cause` slot all stay unset. -/
theorem options_disambiguation (ctorId refId oid : Nat) (et msg : String)
    (fields : List (String × JSValue)) :
    (hasAnyRecognizedKey fields = true →
      mkAglaError ctorId refId et msg (JSValue.obj oid fields) = Except.ok
        { refId := refId, ctorId := ctorId, message := msg,
          _options :=
            { errorType := et,
              code := lookupField "code" fields,
              severity := lookupField "severity" fields,
              timestamp := lookupField "timestamp" fields,
              context := lookupField "context" fields,
              cause := lookupField "cause" fields },
          cause := none }) ∧
    (hasAnyRecognizedKey fields = false →
      mkAglaError ctorId refId et msg (JSValue.obj oid fields) = Except.ok
        { refId := refId, ctorId := ctorId, message := msg,
          _options :=
            { errorType := et, code := JSValue.undef, severity := JSValue.undef,
              timestamp := JSValue.undef, context := JSValue.obj oid fields,
              cause := JSValue.undef },
          cause := none }) := by
  constructor <;> intro h <;>
    simp [mkAglaError, make_obj_eq, h, exceptBind_ok, exceptPure_eq_ok]

/-- C3 witness: the legacy bare object `\x7buserId:'123'\x7d` has no
recognised key, so it becomes the context wholesale while `code`,
`severity` and `timestamp` remain `undefined`. -/
theorem options_disambiguation_witness :
    hasAnyRecognizedKey [("userId", JSValue.str "123")] = false ∧
    mkAglaError 0 1 "E" "m" (JSValue.obj 7 [("userId", JSValue.str "123")]) = Except.ok
      { refId := 1, ctorId := 0, message := "m",
        _options :=
          { errorType := "E", code := JSValue.undef, severity := JSValue.undef,
            timestamp := JSValue.undef,
            context := JSValue.obj 7 [("userId", JSValue.str "123")],
            cause := JSValue.undef },
        cause := none } :=
  ⟨rfl, (options_disambiguation 0 1 7 "E" "m" [("userId", JSValue.str "123")]).2 rfl⟩

/-- C4: `AG_isValidErrorSeverity` returns `true` exactly on the four
string tokens `'fatal'`, `'error'`, `'warning'`, `'info'`.  Every other
modelled runtime value — case-variant or padded strings, numeric
strings, numbers (including `NaN` and the infinities), booleans,
symbols, BigInt values, `null`, `undefined`, dates and arbitrary
objects — yields `false`.  The validator is a total function, so it
never throws. -/
theorem AG_isValidErrorSeverity_iff_member (v : JSValue) :
    AG_isValidErrorSeverity v = true ↔
      (v = JSValue.str "fatal" ∨ v = JSValue.str "error" ∨
       v = JSValue.str "warning" ∨ v = JSValue.str "info") := by
  cases v <;>
    simp [AG_isValidErrorSeverity, AG_ERROR_SEVERITY_VALUES, typeofJS,
      List.contains, List.elem_eq_mem, decide_eq_true_eq]

/-- C6 counterexample: an error constructed with `timestamp: new
Date(NaN)` — a type-correct `Date` — is a constructed instance on which
`toJSON` does not return a record at all: the invalid date is truthy, so
it reaches `toISOString()`, which raises `RangeError`. -/
theorem toJSON_not_total_counterexample :
    mkAglaError 0 15 "E" "m" (JSValue.obj 9 [("timestamp", JSValue.date none 16)]) =
      Except.ok
        { refId := 15, ctorId := 0, message := "m",
          _options :=
            { errorType := "E", code := JSValue.undef, severity := JSValue.undef,
              timestamp := JSValue.date none 16, context := JSValue.undef,
              cause := JSValue.undef },
          cause := none } ∧
    AglaError.toJSON
        { refId := 15, ctorId := 0, message := "m",
          _options :=
            { errorType := "E", code := JSValue.undef, severity := JSValue.undef,
              timestamp := JSValue.date none 16, context := JSValue.undef,
              cause := JSValue.undef },
          cause := none } =
      Except.error (JSException.rangeError "Invalid time value") :=
  ⟨rfl, rfl⟩

/-- C6 amended: for every constructed error instance whose stored
timestamp is absent, falsy, or a valid `Date` (`tsRenderable`), `toJSON`
returns a record with `errorType` and `message` always present, each of
`code`, `severity`, `timestamp` and `context` included exactly when
truthy and omitted entirely otherwise (never set to null), and a present
timestamp rendered as its ISO-8601 string.  (An invalid `Date` instead
makes `toJSON` throw, per the counterexample.) -/
theorem toJSON_spec (e : AglaError) (h : tsRenderable e.timestamp = true) :
    e.toJSON = Except.ok (specToJSON e) := by
  rcases e with ⟨rid, cid, msg, ⟨et, c, s, t, ctx, cz⟩, cl⟩
  simp only [AglaError.timestamp] at h
  cases t
  case date tv did =>
    cases tv with
    | none => simp [tsRenderable] at h
    | some ms => rfl
  case bool b =>
    have hb : b = false := by simpa [tsRenderable] using h
    subst hb; rfl
  case num n =>
    have hn : n = 0 := by simpa [tsRenderable] using h
    subst hn; rfl
  case str s2 =>
    have hs : s2 = "" := by simpa [tsRenderable] using h
    subst hs; rfl
  case bigint n =>
    have hn : n = 0 := by simpa [tsRenderable] using h
    subst hn; rfl
  case undef => rfl
  case null => rfl
  case nan => rfl
  case inf => simp [tsRenderable] at h
  case negInf => simp [tsRenderable] at h
  case sym i => simp [tsRenderable] at h
  case obj oid fields => simp [tsRenderable] at h

/-- C6 amended witness: the spec's two concrete examples.  An error with
`timestamp = new Date('2025-08-29T21:42:00Z')` renders
`"2025-08-29T21:42:00.000Z"`, and an error constructed with only
`errorType` and `message` yields a record with no `code`, `severity`,
`timestamp` or `context` property. -/
theorem toJSON_spec_witness :
    (tsRenderable sampleDatedError.timestamp = true ∧
      sampleDatedError.toJSON = Except.ok
        [("errorType", JSValue.str "E"), ("message", JSValue.str "m"),
         ("timestamp", JSValue.str "2025-08-29T21:42:00.000Z")]) ∧
    (tsRenderable sampleMinimalError.timestamp = true ∧
      sampleMinimalError.toJSON = Except.ok
        [("errorType", JSValue.str "E"), ("message", JSValue.str "m")]) :=
  ⟨⟨rfl, (toJSON_spec sampleDatedError rfl).trans (by rfl)⟩,
   ⟨rfl, (toJSON_spec sampleMinimalError rfl).trans (by rfl)⟩⟩

/-- C7 counterexample: an error whose context holds a BigInt —
`\x7ba: 1n\x7d` is a type-correct context, since context values are
unconstrained — is a constructed instance on which `toString` does not
return a string at all: `JSON.stringify` raises `TypeError` on BigInt
values. -/
theorem toString_not_total_counterexample :
    truthy sampleBigIntCtxError.context = true ∧
    sampleBigIntCtxError.toString =
      Except.error (JSException.typeError "Do not know how to serialize a BigInt") :=
  ⟨rfl, rfl⟩

/-- C7 amended: for every constructed error instance whose context is
falsy or JSON-serialises to a nonempty string (`ctxRenderable`; in
particular every context object free of BigInt values), `toString`
returns the single line `errorType: message`, followed by a space and
the JSON-stringified context exactly when the context is present and
non-falsy.  The output never involves the causal-link slot or any stack
information — it is built from `errorType`, `message` and `context`
alone.  (A BigInt inside the context instead makes `toString` throw,
per the counterexample.) -/
theorem toString_spec (e : AglaError) (h : ctxRenderable e.context = true) :
    e.toString = Except.ok (specToString e) := by
  unfold ctxRenderable at h
  by_cases ht : truthy e.context = true
  · rw [if_pos ht] at h
    rcases hjs : jsonStringify e.context with err | o
    · rw [hjs] at h; simp at h
    · cases o with
      | none => rw [hjs] at h; simp at h
      | some str1 =>
          rw [hjs] at h
          have hne : str1 ≠ "" := by simpa using h
          simp [AglaError.toString, specToString, ht, hjs, hne,
            exceptBind_ok, exceptPure_eq_ok]
  · have ht' : truthy e.context = false := by
      revert ht; cases truthy e.context <;> simp
    simp [AglaError.toString, specToString, ht', exceptBind_ok, exceptPure_eq_ok]

/-- C7 amended witness: the spec's two concrete examples.  With
`errorType = "E"`, `message = "m"` and context `\x7bx:1\x7d` the result
is exactly `E: m \x7b"x":1\x7d`; with no context it is exactly `E: m`. -/
theorem toString_spec_witness :
    (ctxRenderable sampleCtxError.context = true ∧
      sampleCtxError.toString = Except.ok "E: m \x7b\"x\":1\x7d") ∧
    (ctxRenderable sampleMinimalError.context = true ∧
      sampleMinimalError.toString = Except.ok "E: m") :=
  ⟨⟨rfl, (toString_spec sampleCtxError rfl).trans (by rfl)⟩,
   ⟨rfl, (toString_spec sampleMinimalError rfl).trans (by rfl)⟩⟩

/-- C8: `guardAglaErrorContext` raises a descriptive invalid-context
failure exactly on the non-object values (`typeof value === 'object' &&
value !== null` fails precisely there — functions are outside the
modelled universe), and on an object it returns exactly that value,
reference and all, without raising. -/
theorem guardAglaErrorContext_spec (v : JSValue) :
    (isJSObject v = true → guardAglaErrorContext v = Except.ok v) ∧
    (isJSObject v = false → guardAglaErrorContext v = Except.error
      (JSException.jsError
        ("Invalid AglaErrorContext: expected object, got " ++ typeofJS v))) := by
  cases v <;>
    simp [guardAglaErrorContext, isValidAglaErrorContext, isNullValue, isJSObject, typeofJS]

/-- C8 witness: a concrete object passes through the guard untouched,
and a concrete non-object (a string) raises the descriptive failure. -/
theorem guardAglaErrorContext_spec_witness :
    (isJSObject (JSValue.obj 9 [("k", JSValue.num 2)]) = true ∧
      guardAglaErrorContext (JSValue.obj 9 [("k", JSValue.num 2)]) =
        Except.ok (JSValue.obj 9 [("k", JSValue.num 2)])) ∧
    (isJSObject (JSValue.str "ctx") = false ∧
      guardAglaErrorContext (JSValue.str "ctx") = Except.error
        (JSException.jsError "Invalid AglaErrorContext: expected object, got string")) :=
  ⟨⟨rfl, (guardAglaErrorContext_spec (JSValue.obj 9 [("k", JSValue.num 2)])).1 rfl⟩,
   ⟨rfl, ((guardAglaErrorContext_spec (JSValue.str "ctx")).2 rfl).trans (by rfl)⟩⟩

/-- C9: constructing with a structured options bag carrying `code`,
`severity` and `context` succeeds, and the `code`, `severity` and
`context` accessors return exactly the supplied values — `context`
reference-equal to the supplied object (the identity-carrying value is
stored as-is, with no clone or defensive copy, so later mutations of
that shared object remain visible through the accessor) — while the
unsupplied `timestamp` stays `undefined`. -/
theorem construct_roundtrip_accessors (ctorId refId oid : Nat) (et msg : String)
    (codeVal sevVal ctxVal : JSValue) :
    ∃ e, mkAglaError ctorId refId et msg
        (JSValue.obj oid [("code", codeVal), ("severity", sevVal), ("context", ctxVal)]) =
        Except.ok e ∧
      e.code = codeVal ∧ e.severity = sevVal ∧ e.context = ctxVal ∧
      e.timestamp = JSValue.undef :=
  ⟨_, rfl, rfl, rfl, rfl, rfl⟩

/-- C10: an error instance whose stored timestamp is an invalid `Date`
(time value NaN) makes `toJSON` throw `RangeError` — the invalid date is
truthy, so it reaches `toISOString()` — and `toJSON` completes normally
only when the timestamp is absent, falsy, or a valid `Date`; yet
construction itself accepts such a timestamp and stores the invalid date
value unchanged. -/
theorem toJSON_invalid_date_throws (e : AglaError) (oid : Nat) :
    (e.timestamp = JSValue.date none oid →
      e.toJSON = Except.error (JSException.rangeError "Invalid time value")) ∧
    (∀ r, e.toJSON = Except.ok r → tsRenderable e.timestamp = true) ∧
    (∀ ctorId refId oid2 et2 msg2, ∃ e2,
      mkAglaError ctorId refId et2 msg2
          (JSValue.obj oid2 [("timestamp", JSValue.date none oid)]) = Except.ok e2 ∧
        e2.timestamp = JSValue.date none oid) := by
  refine ⟨?_, ?_, ?_⟩
  · intro h
    simp [AglaError.toJSON, h, truthy, toISOStringOf,
      exceptBind_error, exceptBind_ok, exceptPure_eq_ok]
  · intro r hr
    rcases e with ⟨rid, cid, msg, ⟨et, c, s, t, ctx, cz⟩, cl⟩
    simp only [AglaError.toJSON, AglaError.timestamp] at hr
    simp only [AglaError.timestamp]
    cases t
    case undef => rfl
    case null => rfl
    case nan => rfl
    case date tv did =>
      cases tv with
      | some ms => rfl
      | none =>
          simp [truthy, toISOStringOf, exceptBind_error, exceptBind_ok] at hr
    case inf =>
      simp [truthy, toISOStringOf, exceptBind_error, exceptBind_ok] at hr
    case negInf =>
      simp [truthy, toISOStringOf, exceptBind_error, exceptBind_ok] at hr
    case sym i =>
      simp [truthy, toISOStringOf, exceptBind_error, exceptBind_ok] at hr
    case obj oid2 fields =>
      simp [truthy, toISOStringOf, exceptBind_error, exceptBind_ok] at hr
    case bool b =>
      cases b with
      | false => rfl
      | true =>
          simp [truthy, toISOStringOf, exceptBind_error, exceptBind_ok] at hr
    case num n =>
      by_cases hn : n = 0
      · subst hn; rfl
      · have hne : (n != 0) = true := by simp [hn]
        simp [truthy, hne, toISOStringOf, exceptBind_error, exceptBind_ok] at hr
    case str s2 =>
      by_cases hs : s2 = ""
      · subst hs; rfl
      · have hne : (s2 != "") = true := by simp [hs]
        simp [truthy, hne, toISOStringOf, exceptBind_error, exceptBind_ok] at hr
    case bigint n =>
      by_cases hn : n = 0
      · subst hn; rfl
      · have hne : (n != 0) = true := by simp [hn]
        simp [truthy, hne, toISOStringOf, exceptBind_error, exceptBind_ok] at hr
  · intro ctorId refId oid2 et2 msg2
    exact ⟨_, mkAglaError_of_make ctorId refId msg2 rfl, rfl⟩

/-- C10 witness: the concrete instance with an invalid-date timestamp;
`toJSON` on it raises `RangeError: Invalid time value`. -/
theorem toJSON_invalid_date_throws_witness :
    sampleInvalidDateError.timestamp = JSValue.date none 6 ∧
    sampleInvalidDateError.toJSON =
      Except.error (JSException.rangeError "Invalid time value") :=
  ⟨rfl, (toJSON_invalid_date_throws sampleInvalidDateError 6).1 rfl⟩
